import Mathlib

/-
  Verification development for the gophKeeper secret-manager service.

  Shallow embedding of:
  - the data-items metadata repository (internal/server/domain/dataitems/repo/pg/repo.go),
  - the object-store repository (server/internal/domain/data_items/repo/s3/repo.go),
  - the data-item engine (server/internal/domain/dataItems/model/model.go, Service),
  - the gRPC handler / usecase layer (server/internal/handler/grpc/gophkeeper.go,
    server/internal/usecase/dataitems/usecase.go),
  - the user login flow (server/internal/usecase/users, users service, auth service).

  The relational database is modelled as a list of rows, the object store as an
  association list from object names to byte strings.  Fallible infrastructure
  steps (connection failures and the like) are modelled by an explicit fault
  environment `Env`; the pure, data-dependent failure modes (invalid filter,
  duplicate id, missing row, squirrel refusing an UPDATE without SET clauses)
  are computed from the state.  Bytes are lists of naturals.
-/

namespace GophKeeper

/-- Decidable equality for Except, used to evaluate operation results on
concrete inputs. -/
instance exceptDecEq {ε α : Type} [DecidableEq ε] [DecidableEq α] : DecidableEq (Except ε α)
  | Except.error a, Except.error b =>
      match decEq a b with
      | isTrue h => isTrue (h ▸ rfl)
      | isFalse h => isFalse (fun hh => h (by cases hh; rfl))
  | Except.error _, Except.ok _ => isFalse (fun h => by cases h)
  | Except.ok _, Except.error _ => isFalse (fun h => by cases h)
  | Except.ok a, Except.ok b =>
      match decEq a b with
      | isTrue h => isTrue (h ▸ rfl)
      | isFalse h => isFalse (fun hh => h (by cases hh; rfl))

/-- Byte strings (Go []byte). -/
abbrev Bytes := List Nat

/-- Data-type constants from dataItems/model/model.go. -/
def CredentialsDataType : String := "login_password"

/-- Text data type constant. -/
def TextDataType : String := "text"

/-- Binary data type constant. -/
def BinaryDataType : String := "binary"

/-- Bank-card data type constant. -/
def BankCardDataType : String := "bank_card"

/-- Error classification.  Pure data-dependent errors get their own
constructor; injected infrastructure failures are `infra tag`.
`s3FatalExit` models `log.Fatalln` in S3Repo.GetFile on a missing object
(the process aborts; no normal return exists on that path). -/
inductive Err where
  | invalidInput
  | recordNotFound
  | uniqueViolation
  | notNullViolation
  | noSetClause
  | s3FatalExit
  | userNotFound
  | invalidPassword
  | missingCookies
  | jwtCookieNotFound
  | invalidJwtToken
  | infra (tag : String)
deriving DecidableEq, Repr

/-- A data_items row (model.Main / model.DataItems). -/
structure DataItems where
  id : String
  userId : String
  type : String
  data : Bytes
  meta : String
  url : String
  createdAt : Nat
  updatedAt : Nat
deriving DecidableEq, Repr

/-- Query filter for data items (model.GetPars). -/
structure GetPars where
  id : String := ""
  userId : String := ""
  type : String := ""
  meta : String := ""
  url : String := ""
deriving DecidableEq, Repr

/-- GetPars.IsValid: at least one of the five fields is populated
(model.go line 40: ID, UserID, Type, Meta or URL). -/
def GetPars.IsValid (m : GetPars) : Bool :=
  m.id != "" || m.userId != "" || m.type != "" || m.meta != "" || m.url != ""

/-- Partial update carrier (model.Edit). -/
structure Edit where
  id : String := ""
  userId : Option String := none
  type : Option String := none
  data : Option Bytes := none
  meta : Option String := none
  url : Option String := none
  createdAt : Option Nat := none
  updatedAt : Option Nat := none
deriving DecidableEq, Repr

/-- WHERE clause of Repo.Get: conjunction of equality tests for the ID,
UserID and Type fields that are set (repo.go lines 39-49; Meta and URL
are accepted by IsValid but never added to the WHERE clause). -/
def rowMatches (pars : GetPars) (row : DataItems) : Bool :=
  (pars.id == "" || row.id == pars.id) &&
  (pars.userId == "" || row.userId == pars.userId) &&
  (pars.type == "" || row.type == pars.type)

/-- WHERE clause of Repo.Update: only ID and UserID are ever added
(repo.go lines 195-201). -/
def updMatches (pars : GetPars) (row : DataItems) : Bool :=
  (pars.id == "" || row.id == pars.id) &&
  (pars.userId == "" || row.userId == pars.userId)

/-- SET clauses of Repo.Update applied to one row: each pointer field that is
non-nil overwrites the column; updated_at is written only from obj.UpdatedAt;
created_at is never in the SET list (repo.go lines 171-193). -/
def applyEdit (obj : Edit) (row : DataItems) : DataItems :=
  { row with
    userId := obj.userId.getD row.userId
    type := obj.type.getD row.type
    data := obj.data.getD row.data
    meta := obj.meta.getD row.meta
    updatedAt := obj.updatedAt.getD row.updatedAt
    url := obj.url.getD row.url }

/-- Repo.Get (pg/repo.go lines 30-67): InvalidInput on an invalid filter,
otherwise the first matching row (LIMIT 1) with found=false as `none`. -/
def Repo.Get (db : List DataItems) (pars : GetPars) : Except Err (Option DataItems) :=
  if pars.IsValid then Except.ok (db.find? (rowMatches pars))
  else Except.error Err.invalidInput

/-- The row the INSERT of Repo.Create produces for an Edit whose Type is ty
and Data is d, at time now: columns (id, user_id, type, data, meta) come from
the Edit, url defaults to the empty string, and both timestamps default to
the current time (migration part_001). -/
def createdRow (obj : Edit) (ty : String) (d : Bytes) (now : Nat) : DataItems :=
  { id := obj.id
    userId := obj.userId.getD ""
    type := ty
    data := d
    meta := obj.meta.getD ""
    url := ""
    createdAt := now
    updatedAt := now }

/-- Repo.Create (pg/repo.go lines 144-160): INSERT of columns
(id, user_id, type, data, meta).  A nil Type or Data pointer would violate
the NOT NULL constraints; a duplicate id violates the primary key. -/
def Repo.Create (db : List DataItems) (obj : Edit) (now : Nat) : Except Err (List DataItems) :=
  match obj.type, obj.data with
  | some ty, some d =>
      if db.any (fun r => r.id == obj.id) then Except.error Err.uniqueViolation
      else Except.ok (db ++ [createdRow obj ty d now])
  | _, _ => Except.error Err.notNullViolation

/-- True when the partial update carries no SET clause at all, in which case
squirrel's ToSql fails before any SQL is executed. -/
def noSetFields (obj : Edit) : Bool :=
  obj.userId.isNone && obj.type.isNone && obj.data.isNone &&
  obj.meta.isNone && obj.updatedAt.isNone && obj.url.isNone

/-- Repo.Update (pg/repo.go lines 164-210): InvalidInput on an invalid filter,
error when no SET clause exists, otherwise every matching row rewritten. -/
def Repo.Update (db : List DataItems) (pars : GetPars) (obj : Edit) : Except Err (List DataItems) :=
  if !pars.IsValid then Except.error Err.invalidInput
  else if noSetFields obj then Except.error Err.noSetClause
  else Except.ok (db.map (fun row => if updMatches pars row then applyEdit obj row else row))

/-- Repo.Delete (pg/repo.go lines 214-230): InvalidInput on an invalid filter,
otherwise DELETE WHERE id = pars.ID (the only column ever in the WHERE). -/
def Repo.Delete (db : List DataItems) (pars : GetPars) : Except Err (List DataItems) :=
  if !pars.IsValid then Except.error Err.invalidInput
  else Except.ok (db.filter (fun row => row.id != pars.id))

/-- Object store state: object name to content. -/
abbrev S3State := List (String × Bytes)

/-- Lookup of an object by name. -/
def s3Lookup (s3 : S3State) (key : String) : Option Bytes :=
  match s3.find? (fun kv => kv.1 == key) with
  | some kv => some kv.2
  | none => none

/-- Value of a list of decimal digit characters. -/
def digitsVal (cs : List Char) : Nat :=
  cs.foldl (fun a c => a * 10 + (c.toNat - 48)) 0

/-- Go strconv.Atoi with the error discarded (`id, _ := strconv.Atoi(pars.ID)`):
the parsed number for a decimal numeral, 0 otherwise (ids are non-negative,
so the sign handling of Atoi never fires). -/
def goAtoi (s : String) : Nat :=
  if s.data ≠ [] && s.data.all Char.isDigit then digitsVal s.data else 0

/-- Decimal digits of n, most significant first, with structural fuel. -/
def natToDigitsAux : Nat → Nat → List Char
  | 0, _ => []
  | fuel + 1, n =>
      if n = 0 then [] else natToDigitsAux fuel (n / 10) ++ [Char.ofNat (48 + n % 10)]

/-- Go fmt.Sprintf of a non-negative integer in base 10. -/
def natToDec (n : Nat) : String :=
  if n = 0 then "0" else String.mk (natToDigitsAux (n + 1) n)

/-- Object name used by S3Repo.GetFile and S3Repo.UploadFile:
filepath.Join("uploads", fmt.Sprintf("%d", id)) where id went through Atoi
(s3/repo.go lines 64-65 and 82). -/
def objectNameOf (id : String) : String :=
  "uploads/" ++ natToDec (goAtoi id)

/-- Object name used by S3Repo.DeleteFile: filepath.Join("uploads", pars.ID)
on the raw string id, without the Atoi conversion (s3/repo.go line 95). -/
def deleteObjectNameOf (id : String) : String :=
  "uploads/" ++ id

/-- Endpoint host default (conf part_004, S3_ENDPOINT). -/
def s3Host : String := "localhost:9000"

/-- Bucket default (conf part_004, S3_BUCKET). -/
def s3Bucket : String := "mybucket"

/-- S3Repo.GetFile (s3/repo.go lines 63-79): reads the object and returns its
bytes with found = false UNCONDITIONALLY (line 78 returns `buffer.Bytes(),
false, nil`); a missing object makes io.Copy fail into log.Fatalln, modelled
as the error `s3FatalExit`. -/
def S3Repo.GetFile (s3 : S3State) (id : String) : Except Err (Bytes × Bool) :=
  match s3Lookup s3 (objectNameOf id) with
  | some b => Except.ok (b, false)
  | none => Except.error Err.s3FatalExit

/-- S3Repo.UploadFile (s3/repo.go lines 81-90): PutObject under the derived
object name (overwriting), returning the object URL. -/
def S3Repo.UploadFile (s3 : S3State) (id : String) (data : Bytes) : String × S3State :=
  let key := objectNameOf id
  ("http://" ++ s3Host ++ "/" ++ s3Bucket ++ "/" ++ key,
   (key, data) :: s3.filter (fun kv => kv.1 != key))

/-- S3Repo.DeleteFile (s3/repo.go lines 93-101): RemoveObject under the raw-id
object name; removing an absent object is not an error. -/
def S3Repo.DeleteFile (s3 : S3State) (id : String) : S3State :=
  s3.filter (fun kv => kv.1 != deleteObjectNameOf id)

/-- Injected infrastructure faults, one flag per fallible store call site in
the engine.  `nestedGetFails`/`nestedUpdateFails` drive the nested Update call
made from inside Service.Create. -/
structure Env where
  beginFails : Bool := false
  insertFails : Bool := false
  getFails : Bool := false
  updateFails : Bool := false
  deleteFails : Bool := false
  uploadFails : Bool := false
  deleteFileFails : Bool := false
  nestedGetFails : Bool := false
  nestedUpdateFails : Bool := false
deriving DecidableEq, Repr

/-- The fault-free environment. -/
def noFaults : Env := {}

/-- Combined backing-store state: the data_items table and the bucket. -/
structure Store where
  db : List DataItems
  s3 : S3State
deriving DecidableEq, Repr

/-- A write buffered inside a relational transaction. -/
abbrev TxWrite := List DataItems → List DataItems

/-- Repo.HandleTxCompletion (pg/repo.go lines 255-264) seen from the state: a
rollback discards only the transaction's buffered writes, a commit applies
them.  Every repo method executes on r.Con (the shared pool), never on the tx
handle, so in Service.Create the buffer is always empty and pool writes are
already in the state either way. -/
def HandleTxCompletion (pending : List TxWrite) (res : Except Err Unit) (st : Store) : Store :=
  match res with
  | Except.error _ => st
  | Except.ok _ => { st with db := pending.foldl (fun d w => w d) st.db }

/-- The repoDB.Update call at the end of Service.Update, with its injected
fault flag. -/
def serviceDbUpdate (env : Env) (st : Store) (pars : GetPars) (obj : Edit) :
    Except Err Unit × Store :=
  if env.updateFails then (Except.error (Err.infra "update"), st)
  else
    match Repo.Update st.db pars obj with
    | Except.error e => (Except.error e, st)
    | Except.ok db1 => (Except.ok (), { st with db := db1 })

/-- Service.Update (dataItems model.go lines 191-209): read the existing row
(hard error "record not found" when absent); when the existing row is binary
and the partial carries data, upload first and set the partial's URL; then
apply the metadata update. -/
def Service.Update (env : Env) (st : Store) (pars : GetPars) (obj : Edit) :
    Except Err Unit × Store :=
  if env.getFails then (Except.error (Err.infra "get"), st)
  else
    match Repo.Get st.db pars with
    | Except.error e => (Except.error e, st)
    | Except.ok none => (Except.error Err.recordNotFound, st)
    | Except.ok (some existing) =>
        if existing.type = BinaryDataType ∧ obj.data ≠ none then
          if env.uploadFails then (Except.error (Err.infra "upload"), st)
          else
            let up := S3Repo.UploadFile st.s3 pars.id (obj.data.getD [])
            serviceDbUpdate env { st with s3 := up.2 } pars { obj with url := some up.1 }
        else serviceDbUpdate env st pars obj

/-- Service.Create (dataItems model.go lines 128-161): begin a transaction,
insert the metadata row on the pool connection, and for binary items upload
the payload and record the URL through a nested Service.Update; when that
nested update fails, best-effort delete the uploaded object (its error is
discarded) and fail.  The deferred HandleTxCompletion sees an empty
transaction write set because every repo call used the pool. -/
def Service.Create (env : Env) (now : Nat) (st : Store) (obj : Edit) :
    Except Err Unit × Store :=
  if env.beginFails then (Except.error (Err.infra "begin"), st)
  else
    let txPending : List TxWrite := []
    let step : Except Err Unit × Store :=
      if env.insertFails then (Except.error (Err.infra "insert"), st)
      else
        match Repo.Create st.db obj now with
        | Except.error e => (Except.error e, st)
        | Except.ok db1 =>
            let st1 : Store := { st with db := db1 }
            if obj.type = some BinaryDataType then
              if env.uploadFails then (Except.error (Err.infra "upload"), st1)
              else
                let up := S3Repo.UploadFile st1.s3 obj.id (obj.data.getD [])
                let st2 : Store := { st1 with s3 := up.2 }
                let nestedEnv : Env :=
                  { noFaults with getFails := env.nestedGetFails,
                                  updateFails := env.nestedUpdateFails }
                match Service.Update nestedEnv st2 { id := obj.id } { url := some up.1 } with
                | (Except.ok _, st3) => (Except.ok (), st3)
                | (Except.error e, st3) =>
                    let s3n := if env.deleteFileFails then st3.s3
                               else S3Repo.DeleteFile st3.s3 obj.id
                    (Except.error e, { st3 with s3 := s3n })
            else (Except.ok (), st1)
    (step.1, HandleTxCompletion txPending step.1 step.2)

/-- Service.Get (dataItems model.go lines 165-187): soft not-found; for a
binary row the object bytes replace the row's data, and GetFile's found flag
decides whether the whole Get reports found. -/
def Service.Get (env : Env) (st : Store) (pars : GetPars) : Except Err (Option DataItems) :=
  if env.getFails then Except.error (Err.infra "get")
  else
    match Repo.Get st.db pars with
    | Except.error e => Except.error e
    | Except.ok none => Except.ok none
    | Except.ok (some obj) =>
        if obj.type = BinaryDataType then
          match S3Repo.GetFile st.s3 obj.id with
          | Except.error e => Except.error e
          | Except.ok fr =>
              if fr.2 then Except.ok (some { obj with data := fr.1 })
              else Except.ok none
        else Except.ok (some obj)

/-- The repoDB.Delete call at the end of Service.Delete. -/
def serviceDbDelete (env : Env) (st : Store) (pars : GetPars) : Except Err Unit × Store :=
  if env.deleteFails then (Except.error (Err.infra "delete"), st)
  else
    match Repo.Delete st.db pars with
    | Except.error e => (Except.error e, st)
    | Except.ok db1 => (Except.ok (), { st with db := db1 })

/-- Service.Delete (dataItems model.go lines 213-230): read the existing row
(hard error "record not found" when absent); delete the object first for
binary rows, then the metadata row. -/
def Service.Delete (env : Env) (st : Store) (pars : GetPars) : Except Err Unit × Store :=
  if env.getFails then (Except.error (Err.infra "get"), st)
  else
    match Repo.Get st.db pars with
    | Except.error e => (Except.error e, st)
    | Except.ok none => (Except.error Err.recordNotFound, st)
    | Except.ok (some existing) =>
        if existing.type = BinaryDataType then
          if env.deleteFileFails then (Except.error (Err.infra "delete file"), st)
          else serviceDbDelete env { st with s3 := S3Repo.DeleteFile st.s3 existing.id } pars
        else serviceDbDelete env st pars

/-- Usecase.EditData (usecase/dataitems/usecase.go lines 35-39): the filter
passed to Service.Update is GetPars with ONLY the id set; the owner id is not
part of the filter. -/
def Usecase.EditData (env : Env) (st : Store) (obj : Edit) : Except Err Unit × Store :=
  Service.Update env st { id := obj.id } obj

/-- The wire payload of UpdateData (pb.DataItem as used by the handler):
protobuf string fields default to "", bytes to nil. -/
structure UpdateDataRequest where
  id : String := ""
  type : String := ""
  data : Option Bytes := none
  meta : String := ""
deriving DecidableEq, Repr

/-- Handler St.UpdateData (handler/grpc/gophkeeper.go lines 149-178) after
identity resolution: the authenticated user id is injected into the Edit
record's UserID, optional fields are set only when non-zero on the wire, and
the edit is handed to Usecase.EditData. -/
def Handler.UpdateData (env : Env) (st : Store) (userID : String)
    (req : UpdateDataRequest) : Except Err Unit × Store :=
  let editData : Edit :=
    { id := req.id
      userId := some userID
      type := if req.type != "" then some req.type else none
      data := req.data
      meta := if req.meta != "" then some req.meta else none }
  Usecase.EditData env st editData

/-- A users row (users model, Main/User). -/
structure User where
  userId : String
  username : String
  passwordHash : String
  createdAt : Nat := 0
  updatedAt : Nat := 0
deriving DecidableEq, Repr

/-- Query filter for users (users model.GetPars). -/
structure UserGetPars where
  userId : String := ""
  username : String := ""
deriving DecidableEq, Repr

/-- users GetPars.IsValid. -/
def UserGetPars.IsValid (m : UserGetPars) : Bool :=
  m.userId != "" || m.username != ""

/-- users Repo.Get (users/repo/pg/repo.go): InvalidInput on an empty filter,
otherwise the first row matching the set fields (LIMIT 1). -/
def UsersRepo.Get (db : List User) (pars : UserGetPars) : Except Err (Option User) :=
  if pars.IsValid then
    Except.ok (db.find? (fun u =>
      (pars.userId == "" || u.userId == pars.userId) &&
      (pars.username == "" || u.username == pars.username)))
  else Except.error Err.invalidInput

/-- JWT claims carried by the issued token (auth/service.go Claims): the user
id and the expiry. -/
structure TokenClaims where
  uid : String
  expiresAt : Nat
deriving DecidableEq, Repr

/-- A signed token: the claims plus the secret the HMAC signature binds to
(the signature itself is an opaque function of both). -/
structure SignedToken where
  claims : TokenClaims
  signedWith : String
deriving DecidableEq, Repr

/-- Token lifetime, 24 hours in seconds (auth/service.go line 18). -/
def defaultJWTCookieExpiration : Nat := 24 * 60 * 60

/-- Auth.NewToken (auth/service.go lines 89-102): HS256 token whose claims
hold ExpiresAt = now + 24h and UID = the account's user id. -/
def Auth.NewToken (jwtSecret : String) (now : Nat) (u : User) : SignedToken :=
  { claims := { uid := u.userId, expiresAt := now + defaultJWTCookieExpiration },
    signedWith := jwtSecret }

/-- Auth.CreateToken wraps NewToken (signing cannot fail in the model). -/
def Auth.CreateToken (jwtSecret : String) (now : Nat) (u : User) : SignedToken :=
  Auth.NewToken jwtSecret now u

/-- Service.IsValidPassword (users service.go lines 39-43):
bcrypt.CompareHashAndPassword(hash, plain) succeeded; bcrypt itself is the
oracle `bcryptMatches hash plain`. -/
def Service.IsValidPassword (bcryptMatches : String → String → Bool)
    (password plainPassword : String) : Bool :=
  bcryptMatches password plainPassword

/-- Usecase.Login (usecase/users, part_002 lines 93-119): InvalidInput on an
empty username or password, lookup by username (soft not-found becomes
UserNotFound), bcrypt check (failure becomes InvalidPassword), then a signed
token. -/
def Usecase.Login (bc : String → String → Bool) (jwtSecret : String) (now : Nat)
    (db : List User) (username password : String) : Except Err SignedToken :=
  if username == "" || password == "" then Except.error Err.invalidInput
  else
    match UsersRepo.Get db { username := username } with
    | Except.error e => Except.error e
    | Except.ok none => Except.error Err.userNotFound
    | Except.ok (some user) =>
        if !(Service.IsValidPassword bc user.passwordHash password) then
          Except.error Err.invalidPassword
        else Except.ok (Auth.CreateToken jwtSecret now user)

/-- The claim's reading of Login, written from the spec sentence: InvalidInput
exactly on empty input, UserNotFound exactly when no account row matches the
username, InvalidPassword exactly when the hash comparison fails, otherwise a
signed time-limited token whose claims carry the account's user id. -/
def LoginSpecification (bc : String → String → Bool) (jwtSecret : String) (now : Nat)
    (db : List User) (username password : String) : Except Err SignedToken :=
  if username == "" || password == "" then Except.error Err.invalidInput
  else
    match db.find? (fun u => u.username == username) with
    | none => Except.error Err.userNotFound
    | some u =>
        if bc u.passwordHash password then
          Except.ok { claims := { uid := u.userId,
                                  expiresAt := now + defaultJWTCookieExpiration },
                      signedWith := jwtSecret }
        else Except.error Err.invalidPassword

/-- The seven characters compared against by the token scan. -/
def bearerTag : List Char := ['B', 'e', 'a', 'r', 'e', 'r', ' ']

/-- The token-metadata loop of Auth.GetUserIDFromContext (auth/service.go
lines 52-58): `cookieStr[:7]` panics when the entry is shorter than 7 bytes;
an entry carrying the Bearer tag stops the loop with the remainder. -/
def bearerScan : List (List Char) → Except Unit (Option (List Char))
  | [] => Except.ok none
  | s :: rest =>
      if s.length < 7 then Except.error ()
      else if s.take 7 = bearerTag then Except.ok (some (s.drop 7))
      else bearerScan rest

/-- Auth.GetUserIDFromContext (auth/service.go lines 44-59) given the "token"
metadata entries: outer error = Go panic; inner Except = the function's
normal (uid, error) return.  jwt.ParseWithClaims and the claims/validity
check are the oracle `parse`. -/
def Auth.GetUserIDFromContext (parse : List Char → Option String)
    (mdToken : List (List Char)) : Except Unit (Except Err String) :=
  if mdToken.length == 0 then Except.ok (Except.error Err.missingCookies)
  else
    match bearerScan mdToken with
    | Except.error _ => Except.error ()
    | Except.ok none => Except.ok (Except.error Err.jwtCookieNotFound)
    | Except.ok (some tok) =>
        if tok.length == 0 then Except.ok (Except.error Err.jwtCookieNotFound)
        else
          match parse tok with
          | none => Except.ok (Except.error Err.invalidJwtToken)
          | some uid => Except.ok (Except.ok uid)

/-- The empty backing state: no rows, no objects. -/
def storeEmpty : Store := { db := [], s3 := [] }

/-- A binary-type create request: id "1", owner "9", payload DE AD BE EF. -/
def binObjC1 : Edit :=
  { id := "1"
    userId := some "9"
    type := some BinaryDataType
    data := some [222, 173, 190, 239]
    meta := some "" }

/-- A text row owned by user "1". -/
def rowOwnedByU1 : DataItems :=
  { id := "10"
    userId := "1"
    type := TextDataType
    data := [1]
    meta := "m"
    url := ""
    createdAt := 0
    updatedAt := 0 }

/-- The UpdateData wire request sent on behalf of user "2", naming user "1"'s
item id. -/
def updateReqFromU2 : UpdateDataRequest := { id := "10", meta := "x" }

/-- Environment where the object-store upload fails. -/
def uploadFailEnv : Env := { noFaults with uploadFails := true }

/-- Environment where the nested metadata update inside Create fails; df
controls whether the compensating DeleteFile also fails. -/
def nestedUpdateFailEnv (df : Bool) : Env :=
  { noFaults with nestedUpdateFails := true, deleteFileFails := df }

/-- The row Repo.Create inserts for binObjC1 at time 5. -/
def insertedRowAt5 : DataItems :=
  { id := "1"
    userId := "9"
    type := BinaryDataType
    data := [222, 173, 190, 239]
    meta := ""
    url := ""
    createdAt := 5
    updatedAt := 5 }

/-- A filter with only Meta set: none of id, owner_id, type. -/
def metaOnlyPars : GetPars := { meta := "m" }

/-- A text row whose updated_at is 0, used against Repo.Update. -/
def rowMetaOld : DataItems :=
  { id := "1"
    userId := "u"
    type := TextDataType
    data := [1]
    meta := "old"
    url := ""
    createdAt := 0
    updatedAt := 0 }

/-- The spec's concrete scenario: id "a1", owner "u1", type text,
payload "hello". -/
def textObjC3 : Edit :=
  { id := "a1"
    userId := some "u1"
    type := some TextDataType
    data := some [104, 101, 108, 108, 111]
    meta := some "" }

/-- The spec's binary scenario id "b1" — not a canonical decimal numeral, so
Atoi parses it to 0: the upload keys to "uploads/0" while the compensating
delete keys to "uploads/b1". -/
def binObjB1 : Edit :=
  { id := "b1"
    userId := some "u1"
    type := some BinaryDataType
    data := some [222, 173, 190, 239]
    meta := some "" }

/-- A metadata entry of length 8 carrying the Bearer tag. -/
def bearerEntryA : List Char := ['B', 'e', 'a', 'r', 'e', 'r', ' ', 'a']

/-- A metadata entry of length 1, shorter than the 7-byte slice bound. -/
def shortEntryX : List Char := ['x']

end GophKeeper

namespace GophKeeper

/-- Two pointwise-equal predicates find the same element. -/
theorem find?_congr {α : Type} (p q : α → Bool) (l : List α) (h : ∀ x, p x = q x) :
    l.find? p = l.find? q := by
  have hpq : p = q := funext h
  rw [hpq]

/-- find? over a list whose existing elements all fail the predicate reduces
to testing the appended element. -/
theorem find?_append_single {α : Type} (p : α → Bool) (l : List α) (a : α)
    (h : ∀ x ∈ l, p x = false) :
    (l ++ [a]).find? p = if p a then some a else none := by
  induction l with
  | nil => cases hpa : p a <;> simp [List.find?, hpa]
  | cons b t ih =>
      have hb : p b = false := h b (by simp)
      simp only [List.cons_append, List.find?, hb]
      exact ih (fun x hx => h x (by simp [hx]))

/-- Removing every pair with a given key makes lookup of that key fail. -/
theorem s3Lookup_remove_key (l : S3State) (k : String) :
    s3Lookup (l.filter (fun kv => kv.1 != k)) k = none := by
  induction l with
  | nil => simp [s3Lookup]
  | cons kv t ih =>
      by_cases hk : kv.1 = k
      · simp [List.filter, hk, ih]
      · have hne : (kv.1 != k) = true := by simp [hk]
        have hfind : (kv.1 == k) = false := by simp [hk]
        simp only [List.filter, hne]
        simpa [s3Lookup, List.find?, hfind] using ih

/-- C1: for binary items, Create followed by Get is claimed to return
found=true with the created bytes, with the object stored under the derived
key.  Evaluating the code on id "1" with payload DE AD BE EF: Create succeeds
and the object store holds the bytes under "uploads/1", but Get returns
found=false (ok none), because S3Repo.GetFile line 78 returns found=false
unconditionally — contradicting GetFile's own doc comment and the service's
TestService_Get, which expects found=true for a binary item.  The claim is
the intended behaviour; the code is the slip. -/
theorem C1_binary_create_get_roundtrip_fails :
    (Service.Create noFaults 0 storeEmpty binObjC1).1 = Except.ok () ∧
    s3Lookup (Service.Create noFaults 0 storeEmpty binObjC1).2.s3
      (objectNameOf binObjC1.id) = some [222, 173, 190, 239] ∧
    Service.Get noFaults (Service.Create noFaults 0 storeEmpty binObjC1).2
      { id := binObjC1.id } = Except.ok none := by
  refine ⟨by decide, by decide, by decide⟩

/-- C2: an Update performed on behalf of user "2" naming user "1"'s item id
is claimed to leave the row unchanged.  Evaluating the code: the handler
injects user "2" into the Edit record, but Usecase.EditData drops the owner
from the filter (GetPars carries only the id), so the update succeeds and
rewrites user "1"'s row — even reassigning its user_id to "2".  The spec's
isolation invariant is the intent (Get, List and Delete all scope by owner);
the Update path is the slip. -/
theorem C2_cross_user_update_modifies_row :
    (Handler.UpdateData noFaults { db := [rowOwnedByU1], s3 := [] } "2" updateReqFromU2).1 =
      Except.ok () ∧
    (Handler.UpdateData noFaults { db := [rowOwnedByU1], s3 := [] } "2" updateReqFromU2).2.db =
      [{ rowOwnedByU1 with userId := "2", meta := "x" }] ∧
    ({ rowOwnedByU1 with userId := "2", meta := "x" } : DataItems) ≠ rowOwnedByU1 := by
  refine ⟨by decide, by decide, by decide⟩

/-- C5: in Service.Create the metadata insert runs on the shared pool, not on
the transaction handle, so the rollback issued by HandleTxCompletion on error
does not undo it.  Witnessed by a failing binary Create (upload fails after
the insert): Create returns an error, yet the inserted row is still in the
table afterwards. -/
theorem C5_insert_survives_failed_create :
    (Service.Create uploadFailEnv 5 storeEmpty binObjC1).1 =
      Except.error (Err.infra "upload") ∧
    (Service.Create uploadFailEnv 5 storeEmpty binObjC1).2.db = [insertedRowAt5] := by
  refine ⟨by decide, by decide⟩

/-- C7 counterexample: a filter with only Meta set — so none of id, owner_id,
type — is claimed to fail with InvalidInput on Get, Update and Delete.  It
does not: GetPars.IsValid also accepts Meta (and URL), so all three calls
proceed against the store and return without InvalidInput. -/
theorem C7_meta_only_filter_not_rejected :
    Repo.Get ([] : List DataItems) metaOnlyPars = Except.ok none ∧
    Repo.Update ([] : List DataItems) metaOnlyPars { meta := some "x" } = Except.ok [] ∧
    Repo.Delete ([] : List DataItems) metaOnlyPars = Except.ok [] := by
  refine ⟨by decide, by decide, by decide⟩

/-- C8 counterexample: updating Meta alone is claimed to refresh updated_at.
It does not: Repo.Update adds updated_at to the SET list only when the
partial's UpdatedAt pointer is non-nil, so the row's updated_at keeps its old
value while meta changes. -/
theorem C8_updated_at_not_refreshed :
    Repo.Update [rowMetaOld] { id := "1" } { meta := some "new" } =
      Except.ok [{ rowMetaOld with meta := "new" }] ∧
    ({ rowMetaOld with meta := "new" } : DataItems).updatedAt = rowMetaOld.updatedAt ∧
    ({ rowMetaOld with meta := "new" } : DataItems).meta ≠ rowMetaOld.meta := by
  refine ⟨by decide, by decide, by decide⟩

/-- C10 counterexample: the metadata ["Bearer a", "x"] contains an entry
shorter than 7 characters, yet GetUserIDFromContext does not panic — the loop
breaks at the first entry's Bearer tag before reaching the short one, and the
function returns normally (here: the invalid-token error of the parse). -/
theorem C10_short_entry_after_bearer_no_panic :
    shortEntryX.length < 7 ∧
    Auth.GetUserIDFromContext (fun _ => none) [bearerEntryA, shortEntryX] =
      Except.ok (Except.error Err.invalidJwtToken) := by
  exact ⟨by decide, rfl⟩

/-- C6: for every valid filter matching no persisted row, the engine's Get
returns found=false with no error, while the engine's Update and Delete fail
hard with the "record not found" error. -/
theorem C6_soft_get_hard_update_delete (st : Store) (pars : GetPars) (obj : Edit)
    (hvalid : pars.IsValid = true)
    (hnone : ∀ r ∈ st.db, rowMatches pars r = false) :
    Service.Get noFaults st pars = Except.ok none ∧
    (Service.Update noFaults st pars obj).1 = Except.error Err.recordNotFound ∧
    (Service.Delete noFaults st pars).1 = Except.error Err.recordNotFound := by
  have hfind : st.db.find? (rowMatches pars) = none := by
    rw [List.find?_eq_none]
    intro x hx
    simp [hnone x hx]
  refine ⟨?_, ?_, ?_⟩
  · simp [Service.Get, noFaults, Repo.Get, hvalid, hfind]
  · simp [Service.Update, noFaults, Repo.Get, hvalid, hfind]
  · simp [Service.Delete, noFaults, Repo.Get, hvalid, hfind]

/-- C6 witness: the id-only filter "z" against the empty table. -/
theorem C6_soft_get_hard_update_delete_witness :
    Service.Get noFaults storeEmpty { id := "z" } = Except.ok none ∧
    (Service.Update noFaults storeEmpty { id := "z" } {}).1 =
      Except.error Err.recordNotFound ∧
    (Service.Delete noFaults storeEmpty { id := "z" }).1 =
      Except.error Err.recordNotFound :=
  C6_soft_get_hard_update_delete storeEmpty { id := "z" } {} (by decide)
    (by intro r hr; exact absurd hr (by simp [storeEmpty]))

/-- C7 amended: Get, Update and Delete fail with InvalidInput — touching
neither store — exactly for the all-empty filter, where ALL FIVE GetPars
fields (id, owner_id, type, meta, url) are empty; a filter with only meta or
url set passes validation (see the counterexample). -/
theorem C7_all_empty_filter_rejected (db : List DataItems) (pars : GetPars) (obj : Edit)
    (h1 : pars.id = "") (h2 : pars.userId = "") (h3 : pars.type = "")
    (h4 : pars.meta = "") (h5 : pars.url = "") :
    Repo.Get db pars = Except.error Err.invalidInput ∧
    Repo.Update db pars obj = Except.error Err.invalidInput ∧
    Repo.Delete db pars = Except.error Err.invalidInput := by
  have hv : pars.IsValid = false := by
    simp [GetPars.IsValid, h1, h2, h3, h4, h5]
  refine ⟨?_, ?_, ?_⟩ <;> simp [Repo.Get, Repo.Update, Repo.Delete, hv]

/-- C7 witness: the default (all-empty) filter against the empty table. -/
theorem C7_all_empty_filter_rejected_witness :
    Repo.Get ([] : List DataItems) {} = Except.error Err.invalidInput ∧
    Repo.Update ([] : List DataItems) {} {} = Except.error Err.invalidInput ∧
    Repo.Delete ([] : List DataItems) {} = Except.error Err.invalidInput :=
  C7_all_empty_filter_rejected [] {} {} rfl rfl rfl rfl rfl

/-- C8 amended: whenever Repo.Update succeeds, the new table is the old one
with every matching row rewritten by the SET clauses; every field left unset
in the partial is unchanged, created_at is always unchanged, and updated_at
changes only to a value explicitly supplied in the partial (it is NOT
refreshed otherwise — see the counterexample). -/
theorem C8_update_frame (db : List DataItems) (pars : GetPars) (obj : Edit)
    (db1 : List DataItems) (h : Repo.Update db pars obj = Except.ok db1) :
    db1 = db.map (fun row => if updMatches pars row then applyEdit obj row else row) ∧
    ∀ row : DataItems,
      (applyEdit obj row).id = row.id ∧
      (applyEdit obj row).createdAt = row.createdAt ∧
      (obj.userId = none → (applyEdit obj row).userId = row.userId) ∧
      (obj.type = none → (applyEdit obj row).type = row.type) ∧
      (obj.data = none → (applyEdit obj row).data = row.data) ∧
      (obj.meta = none → (applyEdit obj row).meta = row.meta) ∧
      (obj.url = none → (applyEdit obj row).url = row.url) ∧
      (applyEdit obj row).updatedAt = obj.updatedAt.getD row.updatedAt := by
  constructor
  · unfold Repo.Update at h
    by_cases hv : pars.IsValid
    · by_cases hn : noSetFields obj
      · simp [hv, hn] at h
      · simp [hv, hn] at h
        exact h.symm
    · simp [hv] at h
  · intro row
    refine ⟨rfl, rfl, ?_, ?_, ?_, ?_, ?_, rfl⟩ <;> intro hh <;> simp [applyEdit, hh]

/-- C8 witness: updating only meta on a one-row table. -/
theorem C8_update_frame_witness :
    ([{ rowMetaOld with meta := "x" }] : List DataItems) =
      [rowMetaOld].map (fun row =>
        if updMatches { id := "1" } row then applyEdit { meta := some "x" } row else row) ∧
    ∀ row : DataItems,
      (applyEdit { meta := some "x" } row).id = row.id ∧
      (applyEdit { meta := some "x" } row).createdAt = row.createdAt ∧
      ((Edit.userId { meta := some "x" }) = none →
        (applyEdit { meta := some "x" } row).userId = row.userId) ∧
      ((Edit.type { meta := some "x" }) = none →
        (applyEdit { meta := some "x" } row).type = row.type) ∧
      ((Edit.data { meta := some "x" }) = none →
        (applyEdit { meta := some "x" } row).data = row.data) ∧
      ((Edit.meta { meta := some "x" }) = none →
        (applyEdit { meta := some "x" } row).meta = row.meta) ∧
      ((Edit.url { meta := some "x" }) = none →
        (applyEdit { meta := some "x" } row).url = row.url) ∧
      (applyEdit { meta := some "x" } row).updatedAt =
        (Edit.updatedAt { meta := some "x" }).getD row.updatedAt :=
  C8_update_frame [rowMetaOld] { id := "1" } { meta := some "x" }
    [{ rowMetaOld with meta := "x" }] (by decide)

/-- C3: for every non-binary item with a fresh id, Create succeeds without
touching the object store (it still holds no object for that id) and a
subsequent Get by id returns found=true with payload bytes exactly as
supplied at Create. -/
theorem C3_nonbinary_create_get_roundtrip (st : Store) (obj : Edit) (ty : String)
    (d : Bytes) (now : Nat)
    (hty : obj.type = some ty) (htyn : ty ≠ BinaryDataType)
    (hd : obj.data = some d) (hid : obj.id ≠ "")
    (hfresh : ∀ r ∈ st.db, r.id ≠ obj.id)
    (hs3 : s3Lookup st.s3 (objectNameOf obj.id) = none) :
    (Service.Create noFaults now st obj).1 = Except.ok () ∧
    (Service.Create noFaults now st obj).2.s3 = st.s3 ∧
    s3Lookup (Service.Create noFaults now st obj).2.s3 (objectNameOf obj.id) = none ∧
    Service.Get noFaults (Service.Create noFaults now st obj).2 { id := obj.id } =
      Except.ok (some (createdRow obj ty d now)) ∧
    (createdRow obj ty d now).data = d := by
  have hdup : st.db.any (fun r => r.id == obj.id) = false := by
    rw [List.any_eq_false]
    intro x hx
    simp [hfresh x hx]
  have hcreate : Repo.Create st.db obj now = Except.ok (st.db ++ [createdRow obj ty d now]) := by
    simp [Repo.Create, hty, hd, hdup]
  have hnotbin : ¬(obj.type = some BinaryDataType) := by
    rw [hty]
    simp [htyn]
  have hrun : Service.Create noFaults now st obj =
      (Except.ok (), { st with db := st.db ++ [createdRow obj ty d now] }) := by
    simp [Service.Create, noFaults, hcreate, hnotbin, HandleTxCompletion]
  have hvalid : GetPars.IsValid { id := obj.id } = true := by
    simp [GetPars.IsValid, hid]
  have hmold : ∀ x ∈ st.db, rowMatches { id := obj.id } x = false := by
    intro x hx
    simp [rowMatches, hid, hfresh x hx]
  have hfind : (st.db ++ [createdRow obj ty d now]).find? (rowMatches { id := obj.id }) =
      some (createdRow obj ty d now) := by
    rw [find?_append_single _ _ _ hmold]
    simp [rowMatches, createdRow]
  have hget : Service.Get noFaults { st with db := st.db ++ [createdRow obj ty d now] }
      { id := obj.id } = Except.ok (some (createdRow obj ty d now)) := by
    simp only [Service.Get, Repo.Get, hvalid, hfind]
    simp [noFaults, createdRow, htyn]
  rw [hrun]
  exact ⟨rfl, rfl, hs3, hget, rfl⟩

/-- C3 witness: the spec's text scenario, id "a1", payload "hello". -/
theorem C3_nonbinary_create_get_roundtrip_witness :
    (Service.Create noFaults 7 storeEmpty textObjC3).1 = Except.ok () ∧
    (Service.Create noFaults 7 storeEmpty textObjC3).2.s3 = storeEmpty.s3 ∧
    s3Lookup (Service.Create noFaults 7 storeEmpty textObjC3).2.s3
      (objectNameOf textObjC3.id) = none ∧
    Service.Get noFaults (Service.Create noFaults 7 storeEmpty textObjC3).2
      { id := textObjC3.id } =
      Except.ok (some (createdRow textObjC3 TextDataType [104, 101, 108, 108, 111] 7)) ∧
    (createdRow textObjC3 TextDataType [104, 101, 108, 108, 111] 7).data =
      [104, 101, 108, 108, 111] :=
  C3_nonbinary_create_get_roundtrip storeEmpty textObjC3 TextDataType
    [104, 101, 108, 108, 111] 7 (by decide) (by decide) (by decide) (by decide)
    (by intro r hr; exact absurd hr (by simp [storeEmpty])) (by decide)

/-- C4 counterexample: the spec's own binary id "b1" — persistable under the
TEXT id column — during a Create whose upload succeeds and whose nested
URL-recording update fails.  Create does return an error, but the
compensating DeleteFile targets the raw-id key "uploads/b1" while the upload
stored the object under the Atoi-derived key "uploads/0", so the
just-uploaded object is still in the bucket afterwards: "Create deletes the
just-uploaded object" is false at this input. -/
theorem C4_compensation_misses_noncanonical_id :
    (Service.Create (nestedUpdateFailEnv false) 0 storeEmpty binObjB1).1 =
      Except.error (Err.infra "update") ∧
    objectNameOf binObjB1.id = "uploads/0" ∧
    deleteObjectNameOf binObjB1.id = "uploads/b1" ∧
    s3Lookup (Service.Create (nestedUpdateFailEnv false) 0 storeEmpty binObjB1).2.s3
      (objectNameOf binObjB1.id) = some [222, 173, 190, 239] := by
  refine ⟨by decide, by decide, by decide, by decide⟩

/-- C4 amended: during Create of a binary item, when the upload succeeds but
the nested metadata update recording the URL fails, the whole Create returns
that error — regardless of whether the best-effort compensating DeleteFile
itself fails, its error being discarded — and when the compensating delete
goes through it removes the object under the RAW-ID key "uploads/(id)".
That key coincides with the just-uploaded object's Atoi-derived key exactly
when the id is a canonical decimal numeral: then the uploaded object is gone;
for every other id the uploaded object survives under "uploads/(atoi id)"
with the uploaded bytes (see the counterexample). -/
theorem C4_compensation_deletes_raw_id_key (st : Store) (obj : Edit)
    (d : Bytes) (now : Nat) (df : Bool)
    (hty : obj.type = some BinaryDataType) (hd : obj.data = some d)
    (hid : obj.id ≠ "")
    (hfresh : ∀ r ∈ st.db, r.id ≠ obj.id) :
    (Service.Create (nestedUpdateFailEnv df) now st obj).1 =
      Except.error (Err.infra "update") ∧
    (df = false →
      s3Lookup (Service.Create (nestedUpdateFailEnv df) now st obj).2.s3
        (deleteObjectNameOf obj.id) = none) ∧
    (df = false → deleteObjectNameOf obj.id = objectNameOf obj.id →
      s3Lookup (Service.Create (nestedUpdateFailEnv df) now st obj).2.s3
        (objectNameOf obj.id) = none) ∧
    (df = false → deleteObjectNameOf obj.id ≠ objectNameOf obj.id →
      s3Lookup (Service.Create (nestedUpdateFailEnv df) now st obj).2.s3
        (objectNameOf obj.id) = some d) := by
  have hdup : st.db.any (fun r => r.id == obj.id) = false := by
    rw [List.any_eq_false]
    intro x hx
    simp [hfresh x hx]
  have hcreate : Repo.Create st.db obj now =
      Except.ok (st.db ++ [createdRow obj BinaryDataType d now]) := by
    simp [Repo.Create, hty, hd, hdup]
  have hvalid : GetPars.IsValid { id := obj.id } = true := by
    simp [GetPars.IsValid, hid]
  have hmold : ∀ x ∈ st.db, rowMatches { id := obj.id } x = false := by
    intro x hx
    simp [rowMatches, hid, hfresh x hx]
  have hfind : (st.db ++ [createdRow obj BinaryDataType d now]).find?
      (rowMatches { id := obj.id }) = some (createdRow obj BinaryDataType d now) := by
    rw [find?_append_single _ _ _ hmold]
    simp [rowMatches, createdRow]
  have hrun : Service.Create (nestedUpdateFailEnv df) now st obj =
      (Except.error (Err.infra "update"),
       { db := st.db ++ [createdRow obj BinaryDataType d now]
         s3 := if df then
             (S3Repo.UploadFile st.s3 obj.id d).2
           else S3Repo.DeleteFile (S3Repo.UploadFile st.s3 obj.id d).2 obj.id }) := by
    simp [Service.Create, nestedUpdateFailEnv, noFaults, hcreate, hty, hd,
      Service.Update, Repo.Get, hvalid, hfind, serviceDbUpdate, HandleTxCompletion]
  rw [hrun]
  refine ⟨rfl, ?_, ?_, ?_⟩
  · intro hdf
    subst hdf
    simp only [if_neg (by simp : ¬(false = true))]
    show s3Lookup (S3Repo.DeleteFile (S3Repo.UploadFile st.s3 obj.id d).2 obj.id)
      (deleteObjectNameOf obj.id) = none
    unfold S3Repo.DeleteFile
    exact s3Lookup_remove_key _ _
  · intro hdf hkeq
    subst hdf
    simp only [if_neg (by simp : ¬(false = true))]
    show s3Lookup (S3Repo.DeleteFile (S3Repo.UploadFile st.s3 obj.id d).2 obj.id)
      (objectNameOf obj.id) = none
    unfold S3Repo.DeleteFile
    rw [hkeq]
    exact s3Lookup_remove_key _ _
  · intro hdf hkne
    subst hdf
    simp only [if_neg (by simp : ¬(false = true))]
    show s3Lookup (S3Repo.DeleteFile (S3Repo.UploadFile st.s3 obj.id d).2 obj.id)
      (objectNameOf obj.id) = some d
    have hne : (objectNameOf obj.id != deleteObjectNameOf obj.id) = true := by
      simp only [bne_iff_ne, ne_eq]
      exact fun hcontra => hkne hcontra.symm
    simp [S3Repo.DeleteFile, S3Repo.UploadFile, List.filter, hne, s3Lookup, List.find?]

/-- C4 witness: id "b1", payload DE AD BE EF, compensating delete succeeding;
the key-mismatch branch fires. -/
theorem C4_compensation_deletes_raw_id_key_witness :
    (Service.Create (nestedUpdateFailEnv false) 7 storeEmpty binObjB1).1 =
      Except.error (Err.infra "update") ∧
    (false = false →
      s3Lookup (Service.Create (nestedUpdateFailEnv false) 7 storeEmpty binObjB1).2.s3
        (deleteObjectNameOf binObjB1.id) = none) ∧
    (false = false → deleteObjectNameOf binObjB1.id = objectNameOf binObjB1.id →
      s3Lookup (Service.Create (nestedUpdateFailEnv false) 7 storeEmpty binObjB1).2.s3
        (objectNameOf binObjB1.id) = none) ∧
    (false = false → deleteObjectNameOf binObjB1.id ≠ objectNameOf binObjB1.id →
      s3Lookup (Service.Create (nestedUpdateFailEnv false) 7 storeEmpty binObjB1).2.s3
        (objectNameOf binObjB1.id) = some [222, 173, 190, 239]) :=
  C4_compensation_deletes_raw_id_key storeEmpty binObjB1
    [222, 173, 190, 239] 7 false (by decide) (by decide) (by decide)
    (by intro r hr; exact absurd hr (by simp [storeEmpty]))

/-- C9: Login agrees, on every oracle for bcrypt, secret, clock, user table
and credential pair, with the claim's specification: InvalidInput exactly on
empty input, UserNotFound exactly when no row matches the username,
InvalidPassword exactly when the hash comparison fails, otherwise a signed
time-limited token whose claims carry the matched account's user id. -/
theorem C9_login_matches_specification (bc : String → String → Bool) (jwtSecret : String)
    (now : Nat) (db : List User) (username password : String) :
    Usecase.Login bc jwtSecret now db username password =
      LoginSpecification bc jwtSecret now db username password := by
  unfold Usecase.Login LoginSpecification
  by_cases h : (username == "" || password == "") = true
  · simp only [h, if_true]
  · have hb : (username == "" || password == "") = false := by
      revert h
      cases (username == "" || password == "") <;> simp
    have hus : (username == "") = false := by
      revert hb
      cases (username == "") <;> simp
    rw [if_neg h, if_neg h]
    have hv : UserGetPars.IsValid { username := username } = true := by
      simp [UserGetPars.IsValid]
      intro hcontra
      rw [hcontra] at hus
      simp at hus
    simp only [UsersRepo.Get, hv, if_true, hus]
    simp only [show (("" : String) == "") = true from by decide, Bool.true_or,
      Bool.false_or, Bool.true_and]
    cases hf : db.find? (fun u => u.username == username) with
    | none => simp [hf]
    | some u =>
        simp only [hf]
        cases hbc : bc u.passwordHash password with
        | true => simp [Service.IsValidPassword, hbc, Auth.CreateToken, Auth.NewToken]
        | false => simp [Service.IsValidPassword, hbc]

/-- The panic of the token-scan loop: the function result is the Go panic
exactly when the scan itself panics. -/
theorem getUserID_panic_iff_scan (parse : List Char → Option String)
    (md : List (List Char)) :
    Auth.GetUserIDFromContext parse md = Except.error () ↔
    bearerScan md = Except.error () := by
  unfold Auth.GetUserIDFromContext
  cases md with
  | nil => simp [bearerScan]
  | cons a t =>
      have hlen : ((a :: t).length == 0) = false := by simp
      simp only [hlen, Bool.false_eq_true, if_false]
      cases hscan : bearerScan (a :: t) with
      | error e => cases e; simp
      | ok o =>
          cases o with
          | none => simp
          | some tok =>
              by_cases ht : (tok.length == 0) = true
              · simp [ht]
              · have ht2 : (tok.length == 0) = false := by
                  revert ht
                  cases (tok.length == 0) <;> simp
                cases hp : parse tok <;> simp [ht2, hp]

/-- The scan panics exactly when some entry shorter than 7 characters occurs
before any entry carrying the Bearer tag. -/
theorem bearerScan_error_iff (md : List (List Char)) :
    bearerScan md = Except.error () ↔
    ∃ pre x suf, md = pre ++ x :: suf ∧ x.length < 7 ∧
      ∀ y ∈ pre, 7 ≤ y.length ∧ y.take 7 ≠ bearerTag := by
  induction md with
  | nil =>
      simp only [bearerScan]
      apply iff_of_false (by simp)
      rintro ⟨pre, x, suf, habs, _, _⟩
      cases pre <;> simp_all
  | cons s rest ih =>
      unfold bearerScan
      by_cases h7 : s.length < 7
      · rw [if_pos h7]
        exact iff_of_true rfl ⟨[], s, rest, rfl, h7, by simp⟩
      · rw [if_neg h7]
        by_cases hbt : s.take 7 = bearerTag
        · rw [if_pos hbt]
          apply iff_of_false (by simp)
          rintro ⟨pre, x, suf, heq, hx, hall⟩
          cases pre with
          | nil =>
              simp only [List.nil_append] at heq
              cases heq
              exact h7 hx
          | cons p ps =>
              simp only [List.cons_append] at heq
              cases heq
              exact (hall s (by simp)).2 hbt
        · rw [if_neg hbt, ih]
          constructor
          · rintro ⟨pre, x, suf, heq, hx, hall⟩
            refine ⟨s :: pre, x, suf, by rw [heq]; rfl, hx, ?_⟩
            intro y hy
            rcases List.mem_cons.mp hy with hys | hyp
            · rw [hys]
              exact ⟨Nat.le_of_not_lt h7, hbt⟩
            · exact hall y hyp
          · rintro ⟨pre, x, suf, heq, hx, hall⟩
            cases pre with
            | nil =>
                simp only [List.nil_append] at heq
                cases heq
                exact absurd hx h7
            | cons p ps =>
                simp only [List.cons_append] at heq
                cases heq
                exact ⟨ps, x, suf, rfl, hx, fun y hy => hall y (by simp [hy])⟩

/-- C10 amended: GetUserIDFromContext panics exactly when the "token"
metadata contains an entry shorter than 7 characters preceded only by entries
that are at least 7 characters long and do not carry the "Bearer " tag; in
particular it returns normally whenever every entry has length at least 7,
and — unlike the original claim — a short entry standing after a
Bearer-tagged entry does not panic (see the counterexample). -/
theorem C10_panic_characterization (parse : List Char → Option String)
    (md : List (List Char)) :
    Auth.GetUserIDFromContext parse md = Except.error () ↔
    ∃ pre x suf, md = pre ++ x :: suf ∧ x.length < 7 ∧
      ∀ y ∈ pre, 7 ≤ y.length ∧ y.take 7 ≠ bearerTag :=
  (getUserID_panic_iff_scan parse md).trans (bearerScan_error_iff md)

end GophKeeper
